import Mathlib

/-!
Shallow embedding of `reinject.py`, a scoped resource-lifecycle manager
for asyncio applications, together with theorems settling the frozen
claims about it.

Modelling conventions
- Resource values are `Nat` (the engine treats them opaquely).
- Python dicts used purely for lookup (`own_resources`,
  `parent_resources`, `_registry`) are embedded as `String → Option _`
  functions; the merge `{**a, **b}` (in which the entries of `b`
  overwrite those of `a` on a key collision) becomes
  `fun k => (b k).orElse (fun _ => a k)`.
- The `AsyncExitStack` is embedded as the list of release callbacks it
  holds, in registration (= acquisition) order.  `aclose` walks the
  list in reverse.  Each callback registered by `enter_async_context`
  on a `SetupTeardownResource.managed()` generator is: resume the
  generator past `yield` (running `await self.teardown(value)`) when no
  exception is pending, or throw the pending exception into the
  generator at the `yield` when one is, in which case the bare `yield`
  (no try/finally) means the teardown line is skipped and the same
  exception propagates out of the generator.
- Side effects (invocations of setup and teardown functions) are
  recorded as an event trace; exceptions become `Except`/`Option`
  error values carrying the Python message.
- The context-variable scope stack of one branch is an explicit
  `List Scope` whose head is the top (the most recently pushed scope).
-/

namespace Reinject

/-- Resource values handed out by setup functions. -/
abbrev Value := Nat

/-- Exceptions, carried as their message. -/
abbrev Err := String

/-- Observable side effects of the engine: a setup function being
invoked, or a teardown function being invoked. -/
inductive Event where
  | setupEv (name : String)
  | teardownEv (name : String)
deriving DecidableEq, Repr

/-- Embedding of `SetupTeardownResource` (and of the `Resource`
protocol as the engine consumes it): a name, the outcome of awaiting
`setup()` (a value, or a raised exception), and, for each produced
value, whether `teardown(value)` raises. -/
structure Resource where
  name : String
  setup : Except Err Value
  teardownFails : Value → Bool

/-- One release callback held by the exit stack: the resource name,
the value produced by its setup, and whether its teardown raises.
Stored in acquisition order. -/
abbrev ReleaseCb := String × Value × Bool

/-- Embedding of class `Scope` (reinject.py:199): `own_resources` and
`parent_resources` dicts and the `AsyncExitStack` (as its list of
release callbacks in registration order). -/
structure Scope where
  name : String
  own_resources : String → Option Value
  parent_resources : String → Option Value
  exitstack : List ReleaseCb

/-- `Scope.__init__` (reinject.py:208-216).  `parent_resources` is
`{}` without a parent, else the dict literal
`{**parent.own_resources, **parent.parent_resources}`: a fresh dict in
which, on a key collision, the entry of `parent.parent_resources`
(written second) overwrites the entry of `parent.own_resources`. -/
def Scope.init (name : String) (parent : Option Scope) : Scope :=
  { name := name
    own_resources := fun _ => none
    parent_resources := fun k =>
      match parent with
      | none => none
      | some p => (p.parent_resources k).orElse (fun _ => p.own_resources k)
    exitstack := [] }

/-- The `KeyError` message raised by `Scope.__getitem__`
(reinject.py:252-255); `repr(name)` puts single quotes around the
name. -/
def keyErrorMessage (name : String) : String :=
  "Resource \x27" ++ name ++
    "\x27 not instantiated under this scope. (Hint: try .ensure_resource() beforehand)"

/-- `Scope.__getitem__` (reinject.py:239-255): `own_resources` first,
then `parent_resources`, else `KeyError` with a hint. -/
def Scope.getitem (s : Scope) (name : String) : Except Err Value :=
  match s.own_resources name with
  | some v => .ok v
  | none =>
    match s.parent_resources name with
    | some v => .ok v
    | none => .error (keyErrorMessage name)

/-- `Scope.__contains__` (reinject.py:257-260). -/
def Scope.containsName (s : Scope) (name : String) : Bool :=
  (s.own_resources name).isSome || (s.parent_resources name).isSome

/-- `Scope.add_resource` (reinject.py:265-274):
`enter_async_context(resource.managed())` runs the generator up to its
`yield`, i.e. awaits `setup()`.  If setup raises, nothing is stored
and no callback is registered; otherwise the value is stored under
`own_resources[resource.name]`, the release callback is pushed onto
the exit stack, and the value is returned.  The trace records the
setup invocation. -/
def Scope.add_resource (s : Scope) (r : Resource) :
    List Event × Except Err (Scope × Value) :=
  match r.setup with
  | .error e => ([Event.setupEv r.name], .error e)
  | .ok v =>
      ([Event.setupEv r.name],
        .ok
          ({ s with
              own_resources := fun k =>
                if k = r.name then some v else s.own_resources k
              exitstack := s.exitstack ++ [(r.name, v, r.teardownFails v)] },
            v))

/-- Embedding of the module-level registry state
(reinject.py:62-63): `_registry` and `_required_resources_by_scope`. -/
structure GlobalState where
  registry : String → Option Resource
  required_resources_by_scope : String → Finset String

/-- The registry state at process start: both maps empty. -/
def GlobalState.empty : GlobalState :=
  { registry := fun _ => none
    required_resources_by_scope := fun _ => ∅ }

/-- `register_resource` (reinject.py:68-89): store the resource under
its own name (replacing any prior entry), then, when
`autoload_in_scopes` is truthy, add the resource's name to the
autoload set of each listed scope name.  `none` stands for the default
`None`; the falsy empty list and `None` alike skip the loop, which the
fold over `[]` reproduces. -/
def register_resource (g : GlobalState) (r : Resource)
    (autoload_in_scopes : Option (List String)) : GlobalState :=
  let g1 : GlobalState :=
    { g with registry := fun k => if k = r.name then some r else g.registry k }
  match autoload_in_scopes with
  | none => g1
  | some l =>
      { g1 with
          required_resources_by_scope :=
            l.foldl
              (fun m scope_name => fun s =>
                if s = scope_name then insert r.name (m s) else m s)
              g1.required_resources_by_scope }

/-- The `KeyError` raised by `_registry[name]` inside
`Scope.ensure_resource` when the name was never registered. -/
def registryKeyError (name : String) : String :=
  "KeyError: \x27" ++ name ++ "\x27"

/-- `Scope.ensure_resource` (reinject.py:276-287): return the existing
value when `self[name]` succeeds; otherwise look the resource up in
`_registry` and acquire it through `add_resource`. -/
def Scope.ensure_resource (g : GlobalState) (s : Scope) (name : String) :
    List Event × Except Err (Scope × Value) :=
  match s.getitem name with
  | .ok v => ([], .ok (s, v))
  | .error _ =>
    match g.registry name with
    | none => ([], .error (registryKeyError name))
    | some r => s.add_resource r

/-- The autoload loop of `Scope.__aenter__` (reinject.py:220-223):
`ensure_resource` for each required name in turn.  `reqs` is the
iteration order of the set `_required_resources_by_scope.get(name,
set())`, which Python leaves unspecified.  A raised setup exception
propagates immediately; the loop neither catches it nor releases
already-acquired resources. -/
def Scope.aenter_loop (g : GlobalState) :
    Scope → List String → List Event × Except Err Scope
  | s, [] => ([], .ok s)
  | s, n :: rest =>
      let step := s.ensure_resource g n
      match step.2 with
      | .error e => (step.1, .error e)
      | .ok (s', _) =>
          let tail := Scope.aenter_loop g s' rest
          (step.1 ++ tail.1, tail.2)

/-- `Scope.__aenter__` (reinject.py:218-231): run the autoload loop,
then push the scope onto the branch's scope stack (head = top) and
return it.  If the loop raises, the stack is untouched and the
exception propagates (so `__aexit__` will never be called by the
`async with`). -/
def Scope.aenter (g : GlobalState) (stack : List Scope) (s : Scope)
    (reqs : List String) : List Event × Except Err (List Scope × Scope) :=
  let run := Scope.aenter_loop g s reqs
  match run.2 with
  | .error e => (run.1, .error e)
  | .ok s' => (run.1, .ok (s' :: stack, s'))

/-- The message of the `IndexError` raised by `deque.pop()` on an
empty scope stack. -/
def popEmptyError : String := "IndexError: pop from an empty deque"

/-- The exception a failing teardown raises (parameterised only by the
resource name, which suffices for the claims). -/
def teardownError (name : String) : String :=
  "teardown failed: " ++ name

/-- `AsyncExitStack.aclose` over the registered callbacks, processed
in reverse registration order (the argument list is already reversed:
head = last acquired).  `pending` is the exception being propagated
through the unwind.  With no pending exception the generator resumes
past `yield` and the teardown runs (and may itself raise); with a
pending exception, the exception is thrown into the generator at its
bare `yield`, the teardown line is never reached, and the same
exception continues to propagate.  Returns the teardown-invocation
trace and the exception `aclose` finally raises, if any. -/
def runReleases : List ReleaseCb → Option Err → List Event × Option Err
  | [], pending => ([], pending)
  | (n, _, fails) :: rest, none =>
      let pending' := if fails then some (teardownError n) else none
      let tail := runReleases rest pending'
      (Event.teardownEv n :: tail.1, tail.2)
  | _ :: rest, some e => runReleases rest (some e)

/-- `Scope.__aexit__` (reinject.py:233-237): pop the top of the branch
stack (whatever scope that is — `self` is never compared against it;
only an empty stack raises), clear `own_resources`, then
`await self.exitstack.aclose()`.  Returns the popped stack, the scope
after exit, the teardown trace, and the exception `aclose` raised, if
any. -/
def Scope.aexit (stack : List Scope) (s : Scope) :
    Except Err (List Scope × Scope × List Event × Option Err) :=
  match stack with
  | [] => .error popEmptyError
  | _top :: rest =>
      let run := runReleases s.exitstack.reverse none
      .ok (rest,
        { s with own_resources := fun _ => none, exitstack := [] },
        run.1, run.2)

end Reinject

namespace Reinject

/-! ### Shared concrete material for examples and witnesses -/

/-- Build-helper: the scope after a successful `add_resource` (the
input scope unchanged on a setup failure, which the examples below
never hit). -/
def addedScope (s : Scope) (r : Resource) : Scope :=
  match (s.add_resource r).2 with
  | .ok (s', _) => s'
  | .error _ => s

/-- A resource named "x" whose setup yields 1 and whose teardown
succeeds. -/
def resX1 : Resource := ⟨"x", .ok 1, fun _ => false⟩

/-- A resource named "x" whose setup yields 2 and whose teardown
succeeds. -/
def resX2 : Resource := ⟨"x", .ok 2, fun _ => false⟩

/-- Grandparent scope "g" holding own resource x = 1. -/
def scopeG : Scope := addedScope (Scope.init "g" none) resX1

/-- Scope "p" opened under "g" (so it inherits x = 1), which then
created its own resource x = 2. -/
def scopeP : Scope := addedScope (Scope.init "p" (some scopeG)) resX2

/-- Scope "c" opened under "p" after both of those additions. -/
def scopeC : Scope := Scope.init "c" (some scopeP)

/-! ### C1 -/

/-- C1 counterexample: the claim says a child's inherited map prefers
the parent's own entry (the closer ancestor) on a name collision, so a
lookup in `scopeC` falling through to inherited should yield
`scopeP`'s own value 2.  In fact the dict literal
`{**parent.own_resources, **parent.parent_resources}` lets the second
dict win, so `scopeC` inherits x = 1 from the grandparent and
`scopeC["x"]` returns 1, not 2. -/
theorem c1_closer_ancestor_precedence_counterexample :
    scopeP.own_resources "x" = some 2 ∧
    scopeP.parent_resources "x" = some 1 ∧
    scopeC.parent_resources "x" = some 1 ∧
    scopeC.getitem "x" = .ok 1 ∧ (1 : Value) ≠ 2 :=
  ⟨rfl, rfl, rfl, rfl, by decide⟩

/-- C1 amended: for every scope opened with a parent, the inherited
map is built by merging the parent's inherited resources over the
parent's own resources, so on a name collision the entry inherited
from farther ancestors takes precedence over the parent's own entry;
a lookup in the child that falls through to inherited therefore
returns the farther ancestor's value. -/
theorem c1_farther_ancestor_precedence (p : Scope) (cname n : String)
    (v w : Value) (hi : p.parent_resources n = some v)
    (_ho : p.own_resources n = some w) :
    (Scope.init cname (some p)).parent_resources n = some v ∧
    (Scope.init cname (some p)).getitem n = .ok v := by
  constructor
  · simp [Scope.init, hi, Option.orElse]
  · simp [Scope.init, Scope.getitem, hi, Option.orElse]

/-- C1 amended, witnessed at the concrete scope chain: "p" has own
x = 2 and inherited x = 1, and the child of "p" resolves x to 1. -/
theorem c1_farther_ancestor_precedence_witness :
    scopeP.parent_resources "x" = some 1 ∧ scopeP.own_resources "x" = some 2 ∧
    (Scope.init "c" (some scopeP)).parent_resources "x" = some 1 ∧
    (Scope.init "c" (some scopeP)).getitem "x" = .ok 1 :=
  ⟨rfl, rfl, (c1_farther_ancestor_precedence scopeP "c" "x" 1 2 rfl rfl).1,
    (c1_farther_ancestor_precedence scopeP "c" "x" 1 2 rfl rfl).2⟩

/-! ### C6 -/

/-- The hint appended to every `Scope.__getitem__` KeyError message,
suggesting a prior `ensure_resource` call. -/
def ensureResourceHint : String := "(Hint: try .ensure_resource() beforehand)"

/-- C6: `scope[name]` returns the own value when present, else the
inherited value when present, else raises a KeyError whose message
ends with a hint suggesting `.ensure_resource()`; an own entry always
shadows an identically named inherited entry. -/
theorem c6_getitem_resolution_order (s : Scope) (n : String) :
    (∀ v, s.own_resources n = some v → s.getitem n = .ok v) ∧
    (s.own_resources n = none →
      ∀ v, s.parent_resources n = some v → s.getitem n = .ok v) ∧
    (s.own_resources n = none → s.parent_resources n = none →
      s.getitem n = .error (keyErrorMessage n)) ∧
    keyErrorMessage n =
      ("Resource \x27" ++ n ++ "\x27 not instantiated under this scope. ")
        ++ ensureResourceHint := by
  refine ⟨fun v hv => ?_, fun ho v hp => ?_, fun ho hp => ?_, ?_⟩
  · simp [Scope.getitem, hv]
  · simp [Scope.getitem, ho, hp]
  · simp [Scope.getitem, ho, hp]
  · rw [keyErrorMessage, ensureResourceHint, String.append_assoc,
      String.append_assoc]
    rfl

/-- C6 witnessed at a concrete scope: own x = 1 shadowing inherited
x = 9, inherited y = 2 visible, and a missing z raising the KeyError. -/
def c6Scope : Scope :=
  { name := "w"
    own_resources := fun k => if k = "x" then some 1 else none
    parent_resources := fun k =>
      if k = "x" then some 9 else if k = "y" then some 2 else none
    exitstack := [] }

/-- C6 witness: the three branches of the resolution order, evaluated
on `c6Scope`. -/
theorem c6_getitem_resolution_order_witness :
    c6Scope.getitem "x" = .ok 1 ∧ c6Scope.getitem "y" = .ok 2 ∧
    c6Scope.getitem "z" = .error (keyErrorMessage "z") :=
  ⟨(c6_getitem_resolution_order c6Scope "x").1 1 rfl,
    (c6_getitem_resolution_order c6Scope "y").2.1 rfl 2 rfl,
    (c6_getitem_resolution_order c6Scope "z").2.2.1 rfl rfl⟩

/-! ### C8 -/

/-- C8: a child's inherited map is a snapshot taken at construction
time.  If the child is opened under `p` and only afterwards `p`
acquires a new resource (yielding the later parent state `p'`), the
child still sees nothing under that name — its inherited map has
`none` there and its lookup raises — while a lookup in `p'` finds the
new value. -/
theorem c8_inherited_is_snapshot (p : Scope) (cname : String) (r : Resource)
    (p' : Scope) (v : Value) (evs : List Event)
    (hadd : p.add_resource r = (evs, .ok (p', v)))
    (hn : p.own_resources r.name = none)
    (hp : p.parent_resources r.name = none) :
    (Scope.init cname (some p)).parent_resources r.name = none ∧
    (Scope.init cname (some p)).getitem r.name =
      .error (keyErrorMessage r.name) ∧
    p'.getitem r.name = .ok v := by
  cases hs : r.setup with
  | error e => simp [Scope.add_resource, hs] at hadd
  | ok v0 =>
      simp only [Scope.add_resource, hs, Prod.mk.injEq, Except.ok.injEq] at hadd
      obtain ⟨-, hp', hv⟩ := hadd
      refine ⟨?_, ?_, ?_⟩
      · simp [Scope.init, hn, hp, Option.orElse]
      · simp [Scope.init, Scope.getitem, hn, hp, Option.orElse]
      · subst hv
        rw [← hp']
        simp [Scope.getitem]

/-- C8 witness: under an empty parent "p", the child "c" is opened,
then "p" acquires x = 1; the child still cannot see x while the
updated parent can. -/
theorem c8_inherited_is_snapshot_witness :
    (Scope.init "c" (some (Scope.init "p" none))).parent_resources "x" = none ∧
    (Scope.init "c" (some (Scope.init "p" none))).getitem "x" =
      .error (keyErrorMessage "x") ∧
    (addedScope (Scope.init "p" none) resX1).getitem "x" = .ok 1 :=
  c8_inherited_is_snapshot (Scope.init "p" none) "c" resX1
    (addedScope (Scope.init "p" none) resX1) 1 [Event.setupEv "x"] rfl rfl rfl

end Reinject

namespace Reinject

/-! ### Unwind lemmas for the exit stack -/

/-- Once an exception is pending, the remaining generators all receive
it at their bare `yield`: no further teardown runs and the exception
is unchanged. -/
theorem runReleases_pending (l : List ReleaseCb) (e : Err) :
    runReleases l (some e) = ([], some e) := by
  induction l with
  | nil => rfl
  | cons a rest ih => obtain ⟨n, v, f⟩ := a; simp [runReleases, ih]

/-- When every teardown succeeds, the unwind runs each callback's
teardown, in list order, and raises nothing. -/
theorem runReleases_all_ok (l : List ReleaseCb)
    (h : ∀ e ∈ l, e.2.2 = false) :
    runReleases l none = (l.map (fun e => Event.teardownEv e.1), none) := by
  induction l with
  | nil => rfl
  | cons a rest ih =>
      obtain ⟨n, v, f⟩ := a
      have ha : f = false := h (n, v, f) (List.mem_cons_self _ _)
      subst ha
      simp [runReleases, ih fun e he => h e (List.mem_cons_of_mem _ he)]

/-- With a first failing callback after a prefix of succeeding ones,
the unwind runs the teardowns of the prefix and of the failing
callback, skips every later teardown, and ends up raising the first
failure. -/
theorem runReleases_first_failure (good : List ReleaseCb) (b : ReleaseCb)
    (rest : List ReleaseCb) (hg : ∀ e ∈ good, e.2.2 = false)
    (hb : b.2.2 = true) :
    runReleases (good ++ b :: rest) none =
      (good.map (fun e => Event.teardownEv e.1) ++ [Event.teardownEv b.1],
        some (teardownError b.1)) := by
  induction good with
  | nil =>
      obtain ⟨n, v, f⟩ := b
      simp only at hb
      subst hb
      simp [runReleases, runReleases_pending]
  | cons a g ih =>
      obtain ⟨n, v, f⟩ := a
      have ha : f = false := hg (n, v, f) (List.mem_cons_self _ _)
      subst ha
      simp [runReleases, ih fun e he => hg e (List.mem_cons_of_mem _ he)]

/-! ### C2 -/

/-- C2: when every teardown succeeds, exiting a scope that is on top
of the stack runs the queued release actions in strict
reverse-of-acquisition order with no exception, and a resource
acquired exactly once in the scope has its teardown invoked exactly
once.  (Only `add_resource` — also on behalf of `ensure_resource` and
the autoload loop — appends release callbacks, and child scopes never
register callbacks for inherited entries, so the scope's exit stack
holds exactly the resources created in it.) -/
theorem c2_exit_teardowns_reverse_exactly_once (s : Scope)
    (stack : List Scope) (n : String)
    (hok : ∀ e ∈ s.exitstack, e.2.2 = false)
    (hn : (s.exitstack.map (fun e => e.1)).count n = 1) :
    Scope.aexit (s :: stack) s =
      .ok (stack, { s with own_resources := fun _ => none, exitstack := [] },
        ((s.exitstack.map (fun e => e.1)).reverse).map Event.teardownEv,
        none) ∧
    (((s.exitstack.map (fun e => e.1)).reverse).map Event.teardownEv).count
        (Event.teardownEv n) = 1 := by
  have hinj : Function.Injective Event.teardownEv := fun a b h => by
    simpa using h
  constructor
  · have hrun := runReleases_all_ok s.exitstack.reverse
      (fun e he => hok e (List.mem_reverse.mp he))
    simp [Scope.aexit, hrun, List.map_reverse, List.map_map]
  · rw [List.count_map_of_injective _ Event.teardownEv hinj,
      List.count_reverse, hn]

/-- A concrete scope that acquired "a" then "b", both with succeeding
teardowns. -/
def c2Scope : Scope :=
  { name := "s"
    own_resources := fun _ => none
    parent_resources := fun _ => none
    exitstack := [("a", 1, false), ("b", 2, false)] }

/-- C2 witness: exiting `c2Scope` tears down "b" then "a", each
exactly once. -/
theorem c2_exit_teardowns_reverse_exactly_once_witness :
    (∀ e ∈ c2Scope.exitstack, e.2.2 = false) ∧
    ((c2Scope.exitstack.map (fun e => e.1)).count "a" = 1 ∧
      (Scope.aexit [c2Scope] c2Scope =
        .ok ([],
          { c2Scope with own_resources := fun _ => none, exitstack := [] },
          [Event.teardownEv "b", Event.teardownEv "a"], none) ∧
      ([Event.teardownEv "b", Event.teardownEv "a"]).count
          (Event.teardownEv "a") = 1)) :=
  ⟨by decide, by decide,
    c2_exit_teardowns_reverse_exactly_once c2Scope [] "a" (by decide)
      (by decide)⟩

/-! ### C3 -/

/-- A scope that acquired "a" (teardown succeeds) and then "b"
(teardown raises). -/
def c3Scope : Scope :=
  { name := "s"
    own_resources := fun _ => none
    parent_resources := fun _ => none
    exitstack := [("a", 1, false), ("b", 2, true)] }

/-- C3 counterexample: the claim says that when one release action
raises during exit, the remaining teardowns (of resources acquired
earlier) still run.  Exiting `c3Scope`, the teardown of "b" (released
first) raises; the exception is then thrown into the generator holding
"a" at its bare `yield`, so "a"'s teardown never runs: the trace is
`[teardownEv "b"]` and contains no teardown of "a". -/
theorem c3_remaining_teardowns_counterexample :
    Scope.aexit [c3Scope] c3Scope =
      .ok ([], { c3Scope with own_resources := fun _ => none, exitstack := [] },
        [Event.teardownEv "b"], some (teardownError "b")) ∧
    Event.teardownEv "a" ∉ [Event.teardownEv "b"] :=
  ⟨rfl, by decide⟩

/-- C3 amended: on exit the release callbacks are each invoked exactly
once, in reverse acquisition order, and the first failure is raised
only after the whole unwind completes — but a callback invoked with a
pending failure re-raises it at its bare `yield` without running its
teardown function, so teardown functions run only down to (and
including) the first failing one and the teardowns of
earlier-acquired resources are skipped. -/
theorem c3_teardowns_stop_at_first_failure (s : Scope) (stack : List Scope)
    (good : List ReleaseCb) (b : ReleaseCb) (rest : List ReleaseCb)
    (hsplit : s.exitstack.reverse = good ++ b :: rest)
    (hg : ∀ e ∈ good, e.2.2 = false) (hb : b.2.2 = true) :
    Scope.aexit (s :: stack) s =
      .ok (stack, { s with own_resources := fun _ => none, exitstack := [] },
        good.map (fun e => Event.teardownEv e.1) ++ [Event.teardownEv b.1],
        some (teardownError b.1)) := by
  simp [Scope.aexit, hsplit, runReleases_first_failure good b rest hg hb]

/-- C3 amended, witnessed on `c3Scope`: the failing teardown of "b" is
the first release; "a"'s teardown is skipped and the failure
propagates after the unwind. -/
theorem c3_teardowns_stop_at_first_failure_witness :
    c3Scope.exitstack.reverse =
      [] ++ ("b", 2, true) :: [("a", 1, false)] ∧
    Scope.aexit [c3Scope] c3Scope =
      .ok ([], { c3Scope with own_resources := fun _ => none, exitstack := [] },
        [Event.teardownEv "b"], some (teardownError "b")) :=
  ⟨by decide,
    c3_teardowns_stop_at_first_failure c3Scope [] [] ("b", 2, true)
      [("a", 1, false)] (by decide) (by decide) (by decide)⟩

end Reinject

namespace Reinject

/-! ### C4 -/

/-- `ensure_resource` only ever invokes setup functions: its trace
never contains a teardown invocation. -/
theorem ensure_resource_no_teardown (g : GlobalState) (s : Scope)
    (name n : String) :
    Event.teardownEv n ∉ (s.ensure_resource g name).1 := by
  cases hg : s.getitem name with
  | ok v => simp [Scope.ensure_resource, hg]
  | error e =>
    cases hr : g.registry name with
    | none => simp [Scope.ensure_resource, hg, hr]
    | some r =>
      cases hs : r.setup with
      | error e2 =>
          simp [Scope.ensure_resource, hg, hr, Scope.add_resource, hs]
      | ok v =>
          simp [Scope.ensure_resource, hg, hr, Scope.add_resource, hs]

/-- The autoload loop of `__aenter__` never invokes a teardown,
whether it completes or aborts on a failed setup. -/
theorem aenter_loop_no_teardown (g : GlobalState) (reqs : List String)
    (s : Scope) (n : String) :
    Event.teardownEv n ∉ (Scope.aenter_loop g s reqs).1 := by
  induction reqs generalizing s with
  | nil => simp [Scope.aenter_loop]
  | cons hd rest ih =>
      cases hstep : (s.ensure_resource g hd).2 with
      | error e =>
          simpa [Scope.aenter_loop, hstep] using
            ensure_resource_no_teardown g s hd n
      | ok pr =>
          obtain ⟨s', v⟩ := pr
          simp only [Scope.aenter_loop, hstep, List.mem_append]
          push_neg
          exact ⟨ensure_resource_no_teardown g s hd n, ih s'⟩

/-- `__aenter__`'s trace is exactly the autoload loop's trace. -/
theorem aenter_events (g : GlobalState) (stack : List Scope) (s : Scope)
    (reqs : List String) :
    (Scope.aenter g stack s reqs).1 = (Scope.aenter_loop g s reqs).1 := by
  cases h : (Scope.aenter_loop g s reqs).2 <;> simp [Scope.aenter, h]

/-- A resource named "ra" whose setup yields 1. -/
def resA : Resource := ⟨"ra", .ok 1, fun _ => false⟩

/-- A resource named "rb" whose setup raises "boom". -/
def resB : Resource := ⟨"rb", .error "boom", fun _ => false⟩

/-- Registry in which "ra" and "rb" are registered, both autoloaded in
scope "s". -/
def c4Global : GlobalState :=
  register_resource (register_resource GlobalState.empty resA (some ["s"]))
    resB (some ["s"])

/-- C4 counterexample: the claim says that when the setup of one
autoloaded resource fails during entry, the teardowns of the resources
already autoloaded earlier in the same entry run before the open
attempt fails.  Entering scope "s" (autoload order "ra" then "rb"),
"ra" is set up, then "rb"'s setup raises: entry fails with exactly the
two setup invocations in its trace — "ra"'s teardown is never invoked
(and its queued release is abandoned, since `__aexit__` does not run
when `__aenter__` raises). -/
theorem c4_entry_failure_counterexample :
    Scope.aenter c4Global [] (Scope.init "s" none) ["ra", "rb"] =
      ([Event.setupEv "ra", Event.setupEv "rb"], .error "boom") ∧
    Event.teardownEv "ra" ∉ [Event.setupEv "ra", Event.setupEv "rb"] :=
  ⟨rfl, by decide⟩

/-- C4 amended: when an autoloaded setup fails, scope entry fails with
the failing setup's exception and the scope is never pushed onto the
stack (no partially open scope is left) — but the resources autoloaded
earlier in the same entry sequence are NOT released: the entry trace
contains no teardown invocation at all. -/
theorem c4_entry_failure_runs_no_teardown (g : GlobalState)
    (stack : List Scope) (s : Scope) (reqs : List String) (e : Err)
    (n : String)
    (hfail : (Scope.aenter g stack s reqs).2 = .error e) :
    Scope.aenter g stack s reqs =
      ((Scope.aenter_loop g s reqs).1, .error e) ∧
    Event.teardownEv n ∉ (Scope.aenter g stack s reqs).1 := by
  constructor
  · cases hrun : (Scope.aenter_loop g s reqs).2 with
    | error e2 =>
        have heq : Scope.aenter g stack s reqs =
            ((Scope.aenter_loop g s reqs).1, .error e2) := by
          simp [Scope.aenter, hrun]
        rw [heq] at hfail
        simp only [Except.error.injEq] at hfail
        rw [heq, hfail]
    | ok s' => simp [Scope.aenter, hrun] at hfail
  · rw [aenter_events]
    exact aenter_loop_no_teardown g reqs s n

/-- C4 amended, witnessed on the concrete failing entry of scope
"s". -/
theorem c4_entry_failure_runs_no_teardown_witness :
    (Scope.aenter c4Global [] (Scope.init "s" none) ["ra", "rb"]).2 =
      .error "boom" ∧
    (Scope.aenter c4Global [] (Scope.init "s" none) ["ra", "rb"] =
      ((Scope.aenter_loop c4Global (Scope.init "s" none) ["ra", "rb"]).1,
        .error "boom") ∧
    Event.teardownEv "ra" ∉
      (Scope.aenter c4Global [] (Scope.init "s" none) ["ra", "rb"]).1) :=
  ⟨rfl, c4_entry_failure_runs_no_teardown c4Global [] (Scope.init "s" none)
    ["ra", "rb"] "boom" "ra" rfl⟩

/-! ### C5 -/

/-- Scope "a", opened with no parent and holding nothing. -/
def scopeA5 : Scope := Scope.init "a" none

/-- Scope "b", opened with no parent and holding nothing. -/
def scopeB5 : Scope := Scope.init "b" none

/-- C5 counterexample: the claim says scope exit fails fatally
whenever the exiting scope is not the top of the stack.  With the
stack ["b", "a"] (top "b"), exiting scope "a" — not the top —
nonetheless succeeds, silently popping "b": `Scope.__aexit__` calls
`_scope_stack.get().pop()` without ever comparing the popped scope to
`self`. -/
theorem c5_mismatched_exit_counterexample :
    Scope.aexit [scopeB5, scopeA5] scopeA5 =
      .ok ([scopeA5],
        { scopeA5 with own_resources := fun _ => none, exitstack := [] },
        [], none) ∧
    scopeB5.name ≠ scopeA5.name :=
  ⟨rfl, by decide⟩

/-- C5 amended: on exit the top of the current-branch stack is popped
unconditionally — the engine never checks that it is the exiting
scope, so mismatched enter/exit pairing goes undetected; the only
fatal case is popping an empty stack, which raises. -/
theorem c5_exit_pops_top_unconditionally (s top : Scope)
    (rest : List Scope) :
    (∃ ev er, Scope.aexit (top :: rest) s =
      .ok (rest,
        { s with own_resources := fun _ => none, exitstack := [] },
        ev, er)) ∧
    Scope.aexit [] s = .error popEmptyError :=
  ⟨⟨_, _, rfl⟩, rfl⟩

end Reinject

namespace Reinject

/-! ### C7 -/

/-- Well-formedness of the registry state: `register_resource` stores
every resource under its own `.name` (reinject.py:83), so a lookup of
`k` only ever yields a resource named `k`. -/
def GlobalState.Wf (g : GlobalState) : Prop :=
  ∀ k r, g.registry k = some r → r.name = k

/-- The process-start registry is well-formed. -/
theorem GlobalState.empty_wf : GlobalState.empty.Wf := by
  intro k r h
  simp [GlobalState.empty] at h

/-- `register_resource` preserves registry well-formedness. -/
theorem register_resource_wf (g : GlobalState) (r : Resource)
    (l : Option (List String)) (hg : g.Wf) : (register_resource g r l).Wf := by
  intro k r' h
  have hreg : (register_resource g r l).registry k =
      if k = r.name then some r else g.registry k := by
    cases l <;> rfl
  rw [hreg] at h
  by_cases hk : k = r.name
  · rw [if_pos hk] at h
    cases h
    exact hk.symm
  · rw [if_neg hk] at h
    exact hg k r' h

/-- C7: `ensure_resource` is idempotent.  If a call on scope `s`
resolved name `n` to value `v` (leaving the scope in state `s₁` —
unchanged when the name was already created or inherited), then a
second call returns the identical value, leaves the scope unchanged,
and produces an empty trace: the setup function is not invoked
again. -/
theorem c7_ensure_resource_idempotent (g : GlobalState) (s s₁ : Scope)
    (n : String) (v : Value) (evs : List Event) (hwf : g.Wf)
    (h1 : s.ensure_resource g n = (evs, .ok (s₁, v))) :
    s₁.ensure_resource g n = ([], .ok (s₁, v)) := by
  have hget : s₁.getitem n = .ok v := by
    cases hg : s.getitem n with
    | ok w =>
        simp only [Scope.ensure_resource, hg, Prod.mk.injEq,
          Except.ok.injEq] at h1
        obtain ⟨-, hs1, hv⟩ := h1
        rw [← hs1, ← hv]
        exact hg
    | error e =>
        cases hr : g.registry n with
        | none => simp [Scope.ensure_resource, hg, hr] at h1
        | some r =>
            have hname : r.name = n := hwf n r hr
            cases hs : r.setup with
            | error e2 =>
                simp [Scope.ensure_resource, hg, hr, Scope.add_resource,
                  hs] at h1
            | ok v0 =>
                simp only [Scope.ensure_resource, hg, hr, Scope.add_resource,
                  hs, Prod.mk.injEq, Except.ok.injEq] at h1
                obtain ⟨-, hs1, hv⟩ := h1
                subst hname
                rw [← hs1, ← hv]
                simp [Scope.getitem]
  simp [Scope.ensure_resource, hget]

/-- Registry in which only the resource `resX1` ("x", setup yields 1)
is registered. -/
def c7Global : GlobalState :=
  register_resource GlobalState.empty resX1 (some ["s"])

/-- C7 witness: the first `ensure_resource "x"` on an empty scope "s"
invokes setup once and resolves 1; the second call returns the same
value with an empty trace. -/
theorem c7_ensure_resource_idempotent_witness :
    (Scope.init "s" none).ensure_resource c7Global "x" =
      ([Event.setupEv "x"], .ok (addedScope (Scope.init "s" none) resX1, 1)) ∧
    (addedScope (Scope.init "s" none) resX1).ensure_resource c7Global "x" =
      ([], .ok (addedScope (Scope.init "s" none) resX1, 1)) :=
  ⟨rfl,
    c7_ensure_resource_idempotent c7Global (Scope.init "s" none)
      (addedScope (Scope.init "s" none) resX1) "x" 1 [Event.setupEv "x"]
      (register_resource_wf _ _ _ GlobalState.empty_wf) rfl⟩

/-! ### C10 -/

/-- The fold of `register_resource` over the listed scope names only
ever inserts into autoload sets: each prior entry survives. -/
theorem autoload_foldl_superset (names : List String) (rn : String)
    (m : String → Finset String) (sc : String) :
    m sc ⊆
      (names.foldl
        (fun m scope_name => fun s =>
          if s = scope_name then insert rn (m s) else m s) m) sc := by
  induction names generalizing m with
  | nil => simp
  | cons a rest ih =>
      simp only [List.foldl_cons]
      refine Finset.Subset.trans ?_ (ih _)
      intro x hx
      by_cases h : sc = a
      · subst h
        simp [Finset.mem_insert, hx]
      · simp [h, hx]

/-- C10: `register_resource` only ever adds entries to the
scope-name-to-resource-names autoload map: every autoload set of the
prior state is contained in the corresponding set afterwards (so
bindings created by earlier registrations of the same name remain even
when the new registration names different, or no, scopes), while the
definition stored under the resource's name is replaced by the new
one. -/
theorem c10_register_resource_autoload_monotone (g : GlobalState)
    (r : Resource) (l : Option (List String)) (sc : String) :
    g.required_resources_by_scope sc ⊆
      (register_resource g r l).required_resources_by_scope sc ∧
    (register_resource g r l).registry r.name = some r := by
  constructor
  · cases l with
    | none => simp [register_resource]
    | some names =>
        simp only [register_resource]
        exact autoload_foldl_superset names r.name
          g.required_resources_by_scope sc
  · cases l <;> simp [register_resource]

end Reinject

namespace Reinject

/-! ### C9: cooperative interleaving of `ensure_resource`

`ensure_resource` suspends exactly once on the creation path: inside
`await self.setup()` (reached through
`enter_async_context(resource.managed())`, which runs the generator up
to its `yield`).  The synchronous membership check `self[name]`, the
registry lookup and the start of setup form one atomic segment; the
completion of setup, the store into `own_resources[name]` and the
return form the next.  Two logical tasks sharing one scope and calling
`ensure_resource` for the same uncreated name are therefore two state
machines over those segments, interleaved by the cooperative
scheduler. -/

/-- Status of one task running `ensure_resource` for a fixed uncreated
name: `start` — not yet entered; `midSetup v` — the check failed, the
registry was read and `setup()` started (it will produce `v`) and
suspended; `done v` — returned `v`. -/
inductive TaskSt where
  | start
  | midSetup (pending : Value)
  | done (value : Value)
deriving DecidableEq, Repr

/-- Shared per-scope state for that name: the `own_resources` entry,
the number of setup invocations so far, and the value the next setup
invocation will produce (fresh each time, like a new session or
token). -/
structure EnsureSt where
  own : Option Value
  setupCalls : Nat
  nextValue : Value
deriving DecidableEq, Repr

/-- One atomic segment of `ensure_resource` run by one task: from
`start`, either the name is present and the existing value is
returned, or setup is invoked (counted) and the task suspends inside
it; from `midSetup`, setup completes and the produced value is stored
under the name (overwriting any concurrently stored value) and
returned. -/
def taskStep (σ : EnsureSt) (t : TaskSt) : EnsureSt × TaskSt :=
  match t with
  | .start =>
      match σ.own with
      | some v => (σ, .done v)
      | none =>
          ({ σ with
              setupCalls := σ.setupCalls + 1
              nextValue := σ.nextValue + 1 },
            .midSetup σ.nextValue)
  | .midSetup v => ({ σ with own := some v }, .done v)
  | .done v => (σ, .done v)

/-- Run a schedule over two tasks sharing the scope: `false` steps
task 0, `true` steps task 1. -/
def runSched :
    List Bool → EnsureSt × TaskSt × TaskSt → EnsureSt × TaskSt × TaskSt
  | [], st => st
  | b :: rest, (σ, t0, t1) =>
      if b then
        let s := taskStep σ t1
        runSched rest (s.1, t0, s.2)
      else
        let s := taskStep σ t0
        runSched rest (s.1, s.2, t1)

/-- The initial state: the name not yet created, no setup invoked. -/
def ensureStart : EnsureSt × TaskSt × TaskSt :=
  (⟨none, 0, 0⟩, .start, .start)

/-- C9 counterexample: the claim says that even for concurrently
running tasks sharing the scope, setup is invoked exactly once and all
readers observe the identical value.  Under the interleaving
task0-task1-task0-task1 — both tasks pass the `self[name]` check
before either setup completes — setup is invoked twice and the two
tasks return different values. -/
theorem c9_concurrent_ensure_counterexample :
    (runSched [false, true, false, true] ensureStart).1.setupCalls = 2 ∧
    (runSched [false, true, false, true] ensureStart).2.1 = .done 0 ∧
    (runSched [false, true, false, true] ensureStart).2.2 = .done 1 ∧
    (0 : Value) ≠ 1 := by
  decide

/-- C9 amended: the at-most-once guarantee holds only up to the
cooperative scheduler's implicit mutual exclusion: when the two calls
are serialized (the second task first runs after the first completed),
setup is invoked exactly once and both tasks observe the identical
value; interleaved first accesses across setup's suspension point can
invoke setup once per task and yield different values (see the
counterexample). -/
theorem c9_serialized_ensure_exactly_once (c v : Nat) :
    (runSched [false, false, true]
        (⟨none, c, v⟩, .start, .start)).1.setupCalls = c + 1 ∧
    (runSched [false, false, true]
        (⟨none, c, v⟩, .start, .start)).2.1 = TaskSt.done v ∧
    (runSched [false, false, true]
        (⟨none, c, v⟩, .start, .start)).2.2 = TaskSt.done v :=
  ⟨rfl, rfl, rfl⟩

end Reinject
